import Mathlib

/-!
Verification of the korifi repository layer: error classification, client
factory, and the Domain / Package / Route repositories.  Store objects are
embedded as plain structures, store calls as explicit `Except` parameters or
state passing, and timestamps as abstract instants (`Nat`); the repository
functions below follow the Go sources statement by statement.
-/

namespace Korifi

/-- Structured failure reason carried by a store-level status error
(`metav1.StatusReason` on a `*k8serrors.StatusError`). -/
inductive StatusReason
| notFound
| unauthorized
| alreadyExists
| conflict
| invalid
| internalError
deriving DecidableEq

/-- A store-level error: either a structured status error carrying a reason,
or any other error value (transport failures, decode failures, ...). -/
inductive K8sErr
| statusError (reason : StatusReason) (msg : String)
| otherErr (msg : String)
deriving DecidableEq

/-- Errors returned by repository operations: the collapsed
`PermissionDeniedOrNotFoundError` (wrapping the causing store error, when one
exists, and a resource type), ad-hoc duplicate-object errors built with
`errors.New`, and store errors passed through unchanged. -/
inductive RepoErr
| permissionDeniedOrNotFound (err : Option K8sErr) (resourceType : String)
| duplicateErr (msg : String)
| k8s (e : K8sErr)
deriving DecidableEq

/-- The taxonomy kind of a repository error, forgetting its payload. -/
inductive ErrKind
| permissionDeniedOrNotFoundKind
| duplicateKind
| storeKind
deriving DecidableEq

def RepoErr.kind : RepoErr → ErrKind
| .permissionDeniedOrNotFound _ _ => .permissionDeniedOrNotFoundKind
| .duplicateErr _ => .duplicateKind
| .k8s _ => .storeKind

/-- The error kind a caller observes from a repository result, if any. -/
def resultKind {α : Type} : Except RepoErr α → Option ErrKind
| .error e => some e.kind
| .ok _ => none

/-! ## Go sort.Slice -/

/-- One step of Go's insertion sort: insert `x` into the already-sorted
accumulator, placing it before the first element `y` with `less x y`. -/
def goInsert {α : Type} (less : α → α → Bool) (x : α) : List α → List α
| [] => [x]
| y :: ys => if less x y then x :: y :: ys else y :: goInsert less x ys

/-- Embedding of Go `sort.Slice` with comparator `less`.  Go's pdqsort always
produces a sequence sorted with respect to `less`, and on slices shorter than
12 elements it runs exactly a stable insertion sort; the embedding is the
equivalent stable insertion sort. -/
def sortSlice {α : Type} (less : α → α → Bool) (l : List α) : List α :=
  l.foldl (fun acc x => goInsert less x acc) []

/-! ## Domain repository (src/api/repositories/domain_repository.go) -/

/-- The store object backing a domain (`networkingv1alpha1.CFDomain`):
metadata name (the GUID), metadata creation timestamp as an abstract instant,
the derived last-updated instant read by `getTimeLastUpdatedTimestamp`, and
`spec.name`. -/
structure CFDomain where
  name : String
  creationTimestamp : Nat
  updatedAt : Nat
  specName : String
deriving DecidableEq

/-- Record type `DomainRecord`.  The source's `Labels`/`Annotations` fields are omitted:
`cfDomainToDomainRecord` never populates them, so they are always zero. -/
structure DomainRecord where
  name : String
  guid : String
  createdAt : Nat
  updatedAt : Nat
deriving DecidableEq

structure ListDomainsMessage where
  names : List String
deriving DecidableEq

def cfDomainToDomainRecord (d : CFDomain) : DomainRecord :=
  { name := d.specName
    guid := d.name
    createdAt := d.creationTimestamp
    updatedAt := d.updatedAt }

/-- The comparator `applyDomainListFilterAndOrder` passes to `sort.Slice`:
`filtered[i].CreationTimestamp.Before(&filtered[j].CreationTimestamp)`, which
is strict comparison of the creation instants. -/
def domainLess (a b : CFDomain) : Bool :=
  a.creationTimestamp < b.creationTimestamp

/-- The inner loop of the domain name filter: `d` is appended once for every
entry of `names` equal to `d.Spec.Name` (the loop has no break). -/
def appendNameMatches (d : CFDomain) : List String → List CFDomain
| [] => []
| n :: rest =>
  if d.specName == n then d :: appendNameMatches d rest
  else appendNameMatches d rest

/-- The outer loop of the domain name filter. -/
def domainNameFilterLoop (names : List String) : List CFDomain → List CFDomain
| [] => []
| d :: ds => appendNameMatches d names ++ domainNameFilterLoop names ds

def applyDomainListFilterAndOrder (domainList : List CFDomain)
    (message : ListDomainsMessage) : List CFDomain :=
  let filtered :=
    if message.names.length > 0 then domainNameFilterLoop message.names domainList
    else domainList
  sortSlice domainLess filtered

def returnDomainList (domainList : List CFDomain) : List DomainRecord :=
  domainList.map cfDomainToDomainRecord

/-- Embedding of `DomainRepo.GetDomain`: one store get; a `*k8serrors.StatusError` whose
reason is "not found" or "unauthorized" is collapsed into
`PermissionDeniedOrNotFoundError`, every other failure is returned unchanged.
The store call outcome is the parameter `storeGet`. -/
def GetDomain (storeGet : String → Except K8sErr CFDomain)
    (domainGUID : String) : Except RepoErr DomainRecord :=
  match storeGet domainGUID with
  | .error e =>
    match e with
    | .statusError reason msg =>
      if reason = .notFound ∨ reason = .unauthorized then
        .error (.permissionDeniedOrNotFound (some (.statusError reason msg)) "Domain")
      else
        .error (.k8s (.statusError reason msg))
    | .otherErr msg => .error (.k8s (.otherErr msg))
  | .ok domain => .ok (cfDomainToDomainRecord domain)

/-- Embedding of `DomainRepo.ListDomains`: list every domain from the store, then filter
and order client-side.  The store list call outcome is the parameter. -/
def ListDomains (storeList : Except K8sErr (List CFDomain))
    (message : ListDomainsMessage) : Except RepoErr (List DomainRecord) :=
  match storeList with
  | .error e => .error (.k8s e)
  | .ok items => .ok (returnDomainList (applyDomainListFilterAndOrder items message))

/-- Embedding of `DomainRepo.GetDomainByName`: list with a single-name filter and return
the first record; an empty result becomes `PermissionDeniedOrNotFoundError`. -/
def GetDomainByName (storeList : Except K8sErr (List CFDomain))
    (domainName : String) : Except RepoErr DomainRecord :=
  match ListDomains storeList { names := [domainName] } with
  | .error e => .error e
  | .ok records =>
    match records with
    | [] => .error (.permissionDeniedOrNotFound none "Domain")
    | r :: _ => .ok r

/-! ## Package repository (src/unnamed/part_002, second file) -/

def PackageStateAwaitingUpload : String := "AWAITING_UPLOAD"

def PackageStateReady : String := "READY"

/-- The store object backing a package (`workloadsv1alpha1.CFPackage`):
metadata name, namespace, UID, `spec.type`, `spec.appRef.name`,
`spec.source.registry.image`, and the timestamp instants.  The Lean field
`namespaceName` stands for the Go `Namespace` metadata field. -/
structure CFPackage where
  name : String
  namespaceName : String
  uid : String
  specType : String
  appRefName : String
  sourceRegistryImage : String
  creationTimestamp : Nat
  updatedAt : Nat
deriving DecidableEq

structure PackageRecord where
  guid : String
  uid : String
  specType : String
  appGUID : String
  spaceGUID : String
  state : String
  createdAt : Nat
  updatedAt : Nat
deriving DecidableEq

structure ListPackagesMessage where
  appGUIDs : List String
  sortBy : String
  descendingOrder : Bool
  states : List String
deriving DecidableEq

def cfPackageToPackageRecord (p : CFPackage) : PackageRecord :=
  { guid := p.name
    uid := p.uid
    spaceGUID := p.namespaceName
    specType := p.specType
    appGUID := p.appRefName
    state := if p.sourceRegistryImage ≠ "" then PackageStateReady else PackageStateAwaitingUpload
    createdAt := p.creationTimestamp
    updatedAt := p.updatedAt }

/-- The comparator `orderPackages` passes to `sort.Slice`: descending when the
message asks to sort by "created_at" descending, ascending otherwise. -/
def packageLess (message : ListPackagesMessage) (a b : CFPackage) : Bool :=
  if message.sortBy == "created_at" && message.descendingOrder then
    !(a.creationTimestamp < b.creationTimestamp)
  else
    a.creationTimestamp < b.creationTimestamp

def orderPackages (packages : List CFPackage) (message : ListPackagesMessage) :
    List CFPackage :=
  sortSlice (packageLess message) packages

/-- Embedding of `applyPackageFilter`: each inner loop breaks on the first matching filter
entry, so a record is appended at most once — exactly a filter by "any entry
matches"; an empty filter list leaves the collection unrestricted. -/
def applyPackageFilter (packages : List PackageRecord)
    (message : ListPackagesMessage) : List PackageRecord :=
  let appFiltered :=
    if message.appGUIDs.length > 0 then
      packages.filter (fun p => message.appGUIDs.any (fun g => p.appGUID == g))
    else packages
  let stateFiltered :=
    if message.states.length > 0 then
      appFiltered.filter (fun p => message.states.any (fun s => p.state == s))
    else appFiltered
  stateFiltered

def convertToPackageRecords (packages : List CFPackage) : List PackageRecord :=
  packages.map cfPackageToPackageRecord

/-- Embedding of `PackageRepo.ListPackages`: list, order, convert, then filter. -/
def ListPackages (storeList : Except K8sErr (List CFPackage))
    (message : ListPackagesMessage) : Except RepoErr (List PackageRecord) :=
  match storeList with
  | .error e => .error (.k8s e)
  | .ok items =>
    .ok (applyPackageFilter (convertToPackageRecords (orderPackages items message)) message)

def filterPackagesByMetadataName (packages : List CFPackage) (name : String) :
    List CFPackage :=
  packages.filter (fun p => p.name == name)

/-- Embedding of `returnPackage`: zero matches collapse to
`PermissionDeniedOrNotFoundError{}`, more than one match is the distinct
duplicate-object error, exactly one match is converted to a record. -/
def returnPackage : List CFPackage → Except RepoErr PackageRecord
| [] => .error (.permissionDeniedOrNotFound none "")
| [p] => .ok (cfPackageToPackageRecord p)
| _ :: _ :: _ => .error (.duplicateErr "duplicate packages exist")

/-- Embedding of `PackageRepo.GetPackage`: list across namespaces, filter by metadata name,
enforce uniqueness. -/
def GetPackage (storeList : Except K8sErr (List CFPackage)) (guid : String) :
    Except RepoErr PackageRecord :=
  match storeList with
  | .error e => .error (.k8s e)
  | .ok items => returnPackage (filterPackagesByMetadataName items guid)

/-! ## Client factory (src/unnamed/part_002, first file) -/

/-- Caller identity for one request.  Modelled from the spec: the
`authorization` package itself is outside the sources; per the spec an
AuthInfo carries an authentication scheme (bearer | client-certificate), a
bearer token, and PEM-encoded certificate+key material, and `Scheme()`
returns the scheme name, compared after `strings.ToLower`. -/
structure AuthInfo where
  scheme : String
  token : String
  certData : List Nat
deriving DecidableEq

/-- Modelled from the spec: the bearer scheme constant of the missing
`authorization` package. -/
def BearerScheme : String := "bearer"

/-- Modelled from the spec: the client-certificate scheme constant of the
missing `authorization` package. -/
def CertScheme : String := "clientcert"

/-- Go `strings.ToLower`, embedded as a character map (Lean's own
`String.toLower` is extensionally the same function but is defined by
well-founded recursion over byte positions, which blocks kernel
evaluation). -/
def toLowerStr (s : String) : String := ⟨s.data.map Char.toLower⟩

/-- The credential fields of a `rest.Config` the factory writes. -/
structure RestConfig where
  bearerToken : String
  certData : List Nat
  keyData : List Nat
deriving DecidableEq

/-- Where `UnprivilegedClientFactory.BuildClient` ends up before any network
interaction: an authentication failure, a PEM decode failure, or control
reaching `client.NewWithWatch` with a fully prepared config (the only place a
store client is constructed and a store call can be attempted). -/
inductive BuildStep
| notAuthenticated
| certPemDecodeFailed
| keyPemDecodeFailed
| constructClient (config : RestConfig)
deriving DecidableEq

/-- Embedding of `UnprivilegedClientFactory.BuildClient` up to the `client.NewWithWatch`
call.  `pemDecode` stands for `pem.Decode` (first PEM block plus remaining
bytes, or nothing), `pemEncodeToMemory` for `pem.EncodeToMemory`, and `base`
for the factory's anonymized copied base config. -/
def BuildClient (pemDecode : List Nat → Option (List Nat × List Nat))
    (pemEncodeToMemory : List Nat → List Nat)
    (base : RestConfig) (authInfo : AuthInfo) : BuildStep :=
  let config := base
  if toLowerStr authInfo.scheme == BearerScheme then
    .constructClient { config with bearerToken := authInfo.token }
  else if toLowerStr authInfo.scheme == CertScheme then
    match pemDecode authInfo.certData with
    | none => .certPemDecodeFailed
    | some (certBlock, rst) =>
      match pemDecode rst with
      | none => .keyPemDecodeFailed
      | some (keyBlock, _) =>
        .constructClient
          { config with
            certData := pemEncodeToMemory certBlock
            keyData := pemEncodeToMemory keyBlock }
  else
    .notAuthenticated

/-- Whether the build reached client construction (the first point at which
any call against the store could happen). -/
def storeCallAttempted : BuildStep → Bool
| .constructClient _ => true
| _ => false

/-- Classification of a client-factory failure: the default scheme branch
returns `apierrors.NewNotAuthenticatedError`, while PEM decode failures are
plain `fmt.Errorf` values, i.e. transport/unknown. -/
inductive ClientBuildErrKind
| notAuthenticatedKind
| unknownKind
deriving DecidableEq

def buildFailureKind : BuildStep → Option ClientBuildErrKind
| .notAuthenticated => some .notAuthenticatedKind
| .certPemDecodeFailed => some .unknownKind
| .keyPemDecodeFailed => some .unknownKind
| .constructClient _ => none

/-! ## Route repository

The route repository source file is not among the provided sources; only its
test suite (src/unnamed/part_003) is.  The definitions below are therefore
modelled from the spec (§4.3, §6) and checked against the observable
behaviour the tests pin down. -/

structure DestinationRecord where
  guid : String
  appGUID : String
  processType : String
  port : Nat
  protocol : String
deriving DecidableEq

structure DestinationMessage where
  appGUID : String
  processType : String
  port : Nat
  protocol : String
deriving DecidableEq

/-- The de-duplication key of a destination already on the route:
(AppGUID, ProcessType, Port, Protocol). -/
def DestinationRecord.key (d : DestinationRecord) : String × String × Nat × String :=
  (d.appGUID, d.processType, d.port, d.protocol)

/-- The de-duplication key of a requested destination addition. -/
def DestinationMessage.key (m : DestinationMessage) : String × String × Nat × String :=
  (m.appGUID, m.processType, m.port, m.protocol)

def DestinationMessage.toRecord (m : DestinationMessage) (guid : String) :
    DestinationRecord :=
  { guid := guid
    appGUID := m.appGUID
    processType := m.processType
    port := m.port
    protocol := m.protocol }

/-- Modelled from the spec: de-duplicate the requested additions by the key
(AppGUID, ProcessType, Port, Protocol); later duplicates in the same request
are dropped silently, the first occurrence is kept. -/
def dedupByKey : List DestinationMessage → List DestinationMessage
| [] => []
| m :: rest => m :: (dedupByKey rest).filter (fun m2 => m2.key != m.key)

/-- Modelled from the spec: the merge-without-duplication step of
`AddDestinationsToRoute` — de-duplicate the requested additions by key, drop
any addition whose key already exists in the current set, give each surviving
entry a fresh identifier (`freshGUID i` is the i-th fresh identifier), and
take the union. -/
def mergeDestinations (existing : List DestinationRecord)
    (requested : List DestinationMessage) (freshGUID : Nat → String) :
    List DestinationRecord :=
  let deduped := dedupByKey requested
  let surviving := deduped.filter (fun m => !(existing.any (fun e => e.key == m.key)))
  existing ++ (surviving.enum.map (fun p => p.2.toRecord (freshGUID p.1)))

structure AddDestinationsToRouteMessage where
  routeGUID : String
  spaceGUID : String
  existingDestinations : List DestinationRecord
  newDestinations : List DestinationMessage
deriving DecidableEq

/-- Modelled from the spec: `AddDestinationsToRoute` applies the merged set as
one conditional patch and returns the full updated destination set (old plus
new) on the record; with no concurrent writer the patch succeeds, so the
operation's result is the merged destination set. -/
def AddDestinationsToRoute (message : AddDestinationsToRouteMessage)
    (freshGUID : Nat → String) : List DestinationRecord :=
  mergeDestinations message.existingDestinations message.newDestinations freshGUID

/-- The store object backing a route (`networkingv1alpha1.CFRoute`), reduced
to the fields the claims mention. -/
structure CFRoute where
  name : String
  namespaceName : String
  host : String
  path : String
  protocol : String
  domainGUID : String
  destinations : List DestinationRecord
deriving DecidableEq

structure RouteRecord where
  guid : String
  spaceGUID : String
  host : String
  path : String
  protocol : String
  domainGUID : String
  destinations : List DestinationRecord
deriving DecidableEq

def cfRouteToRouteRecord (r : CFRoute) : RouteRecord :=
  { guid := r.name
    spaceGUID := r.namespaceName
    host := r.host
    path := r.path
    protocol := r.protocol
    domainGUID := r.domainGUID
    destinations := r.destinations }

def filterRoutesByMetadataName (routes : List CFRoute) (name : String) :
    List CFRoute :=
  routes.filter (fun r => r.name == name)

/-- Modelled from the spec: get-by-identifier with uniqueness enforcement for
routes — zero matches collapse to `PermissionDeniedOrNotFoundError`, more
than one match is the distinct duplicate-object error the tests observe
("duplicate route GUID exists"), one match is converted to a record. -/
def returnRoute : List CFRoute → Except RepoErr RouteRecord
| [] => .error (.permissionDeniedOrNotFound none "")
| [r] => .ok (cfRouteToRouteRecord r)
| _ :: _ :: _ => .error (.duplicateErr "duplicate route GUID exists")

/-- Modelled from the spec: `RouteRepo.GetRoute` lists routes across
namespaces, filters by metadata name, then enforces uniqueness. -/
def GetRoute (storeList : Except K8sErr (List CFRoute)) (guid : String) :
    Except RepoErr RouteRecord :=
  match storeList with
  | .error e => .error (.k8s e)
  | .ok items => returnRoute (filterRoutesByMetadataName items guid)

structure CreateRouteMessage where
  host : String
  path : String
  spaceGUID : String
  domainGUID : String
deriving DecidableEq

/-- Whether a stored route is equivalent to a create message: same logical
identity (space, host, path, domain). -/
def routeMatchesMessage (r : CFRoute) (m : CreateRouteMessage) : Bool :=
  r.namespaceName == m.spaceGUID && r.host == m.host &&
    r.path == m.path && r.domainGUID == m.domainGUID

def messageToCFRoute (m : CreateRouteMessage) (guid : String) : CFRoute :=
  { name := guid
    namespaceName := m.spaceGUID
    host := m.host
    path := m.path
    protocol := ""
    domainGUID := m.domainGUID
    destinations := [] }

/-- Modelled from the spec (§6): the store's create call, with state the list
of stored routes.  It fails with an "already exists" status when an object
with the same name and namespace is present, or when the store's own
uniqueness constraint finds an equivalent route; otherwise the object is
appended. -/
def storeCreateRoute (s : List CFRoute) (obj : CFRoute) :
    Except K8sErr (List CFRoute) :=
  if s.any (fun r => r.name == obj.name && r.namespaceName == obj.namespaceName) then
    .error (.statusError .alreadyExists "route name already exists")
  else if s.any (fun r => r.namespaceName == obj.namespaceName && r.host == obj.host &&
      r.path == obj.path && r.domainGUID == obj.domainGUID) then
    .error (.statusError .alreadyExists "equivalent route already exists")
  else
    .ok (s ++ [obj])

/-- Modelled from the spec: `RouteRepo.CreateRoute` builds the store object
from the message (with a freshly generated GUID, passed explicitly) and
attempts the store create. -/
def CreateRoute (s : List CFRoute) (message : CreateRouteMessage)
    (guid : String) : Except K8sErr (RouteRecord × List CFRoute) :=
  let obj := messageToCFRoute message guid
  match storeCreateRoute s obj with
  | .error e => .error e
  | .ok s2 => .ok (cfRouteToRouteRecord obj, s2)

def isAlreadyExistsErr : K8sErr → Bool
| .statusError .alreadyExists _ => true
| _ => false

/-- Modelled from the spec: `RouteRepo.GetOrCreateRoute` — attempt create;
when the create fails specifically because an equivalent object already
exists, re-fetch the route matching the message and return the existing
record instead of propagating the conflict; every other failure is passed
through. -/
def GetOrCreateRoute (s : List CFRoute) (message : CreateRouteMessage)
    (guid : String) : Except RepoErr (RouteRecord × List CFRoute) :=
  match CreateRoute s message guid with
  | .ok (record, s2) => .ok (record, s2)
  | .error e =>
    if isAlreadyExistsErr e then
      match s.filter (fun r => routeMatchesMessage r message) with
      | [] => .error (.permissionDeniedOrNotFound (some e) "Route")
      | r :: _ => .ok (cfRouteToRouteRecord r, s)
    else
      .error (.k8s e)

/-! ## Lemmas about the sort embedding -/

lemma goInsert_perm {α : Type} (less : α → α → Bool) (x : α) (l : List α) :
    List.Perm (goInsert less x l) (x :: l) := by
  induction l with
  | nil => exact List.Perm.refl _
  | cons y ys ih =>
    by_cases h : less x y = true
    · simp [goInsert, h]
    · simp only [goInsert, h, if_false, Bool.false_eq_true]
      exact (ih.cons y).trans (List.Perm.swap x y ys)

lemma foldl_goInsert_perm {α : Type} (less : α → α → Bool) :
    ∀ (l acc : List α),
      List.Perm (l.foldl (fun acc2 x => goInsert less x acc2) acc) (acc ++ l) := by
  intro l
  induction l with
  | nil => intro acc; simp
  | cons x xs ih =>
    intro acc
    refine List.Perm.trans (ih (goInsert less x acc)) ?_
    refine List.Perm.trans ((goInsert_perm less x acc).append_right xs) ?_
    exact List.perm_middle.symm

lemma sortSlice_perm {α : Type} (less : α → α → Bool) (l : List α) :
    List.Perm (sortSlice less l) l := by
  simpa [sortSlice] using foldl_goInsert_perm less l []

lemma goInsert_pairwise {α : Type} {less : α → α → Bool} {P : α → α → Prop}
    (h1 : ∀ a b, less a b = true → P a b)
    (h2 : ∀ a b, less a b = false → P b a)
    (htrans : ∀ a b c, P a b → P b c → P a c)
    (x : α) : ∀ (l : List α), l.Pairwise P → (goInsert less x l).Pairwise P := by
  intro l
  induction l with
  | nil => intro _; simp [goInsert]
  | cons y ys ih =>
    intro hl
    rw [List.pairwise_cons] at hl
    obtain ⟨hy, hys⟩ := hl
    by_cases h : less x y = true
    · simp only [goInsert, h, if_true]
      refine List.Pairwise.cons ?_ (List.Pairwise.cons hy hys)
      intro z hz
      rcases List.mem_cons.mp hz with rfl | hz2
      · exact h1 x z h
      · exact htrans x y z (h1 x y h) (hy z hz2)
    · have hf : less x y = false := Bool.eq_false_iff.mpr h
      simp only [goInsert, hf, if_false, Bool.false_eq_true]
      refine List.Pairwise.cons ?_ (ih hys)
      intro z hz
      have hz2 : z ∈ x :: ys := (goInsert_perm less x ys).subset hz
      rcases List.mem_cons.mp hz2 with rfl | hz3
      · exact h2 z y hf
      · exact hy z hz3

lemma sortSlice_pairwise {α : Type} {less : α → α → Bool} {P : α → α → Prop}
    (h1 : ∀ a b, less a b = true → P a b)
    (h2 : ∀ a b, less a b = false → P b a)
    (htrans : ∀ a b c, P a b → P b c → P a c)
    (l : List α) : (sortSlice less l).Pairwise P := by
  suffices h : ∀ (l2 acc : List α), acc.Pairwise P →
      (l2.foldl (fun acc2 x => goInsert less x acc2) acc).Pairwise P by
    exact h l [] List.Pairwise.nil
  intro l2
  induction l2 with
  | nil => intro acc hacc; exact hacc
  | cons x xs ih =>
    intro acc hacc
    exact ih _ (goInsert_pairwise h1 h2 htrans x acc hacc)

/-! ## Lemmas about the domain name filter -/

lemma domainNameFilterLoop_single (n : String) :
    ∀ (items : List CFDomain),
      domainNameFilterLoop [n] items = items.filter (fun d => d.specName == n) := by
  intro items
  induction items with
  | nil => rfl
  | cons d ds ih =>
    simp only [domainNameFilterLoop, appendNameMatches, List.filter_cons]
    by_cases h : (d.specName == n) = true
    · simp [h, ih]
    · simp [Bool.eq_false_iff.mpr h, ih]

lemma appendNameMatches_nil_of_not_mem (d : CFDomain) (names : List String)
    (h : d.specName ∉ names) : appendNameMatches d names = [] := by
  induction names with
  | nil => rfl
  | cons n ns ih =>
    have hne : (d.specName == n) = false := by
      refine beq_eq_false_iff_ne.mpr ?_
      intro he
      exact h (he ▸ List.mem_cons_self n ns)
    simp only [appendNameMatches, hne, if_false, Bool.false_eq_true]
    exact ih (fun hm => h (List.mem_cons_of_mem n hm))

lemma appendNameMatches_count (d d2 : CFDomain) (names : List String) :
    (appendNameMatches d names).count d2 =
      if d2 = d then names.count d.specName else 0 := by
  induction names with
  | nil => simp [appendNameMatches]
  | cons n ns ih =>
    by_cases h2 : d2 = d
    · subst h2
      simp only [if_pos rfl] at ih ⊢
      by_cases h : (d2.specName == n) = true
      · have hn : n = d2.specName := (beq_iff_eq.mp h).symm
        simp [appendNameMatches, h, List.count_cons, ih, hn]
      · have hn : ¬(n = d2.specName) := by
          intro he
          exact h (beq_iff_eq.mpr he.symm)
        simp [appendNameMatches, Bool.eq_false_iff.mpr h, List.count_cons, ih, hn]
    · have hne : (d2 == d) = false := beq_eq_false_iff_ne.mpr h2
      have hne2 : ¬(d = d2) := fun hh => h2 hh.symm
      simp only [if_neg h2] at ih ⊢
      by_cases h : (d.specName == n) = true
      · simp [appendNameMatches, h, List.count_cons, ih, hne, hne2]
      · simp [appendNameMatches, Bool.eq_false_iff.mpr h, List.count_cons, ih]

lemma domainNameFilterLoop_count (names : List String) (d : CFDomain) :
    ∀ (items : List CFDomain),
      (domainNameFilterLoop names items).count d =
        items.count d * names.count d.specName := by
  intro items
  induction items with
  | nil => simp [domainNameFilterLoop]
  | cons d2 ds ih =>
    simp only [domainNameFilterLoop, List.count_append, ih, List.count_cons,
      appendNameMatches_count d2 d names]
    by_cases h : d = d2
    · subst h
      simp only [if_pos rfl, beq_self_eq_true, if_true]
      ring
    · rw [if_neg h, beq_eq_false_iff_ne.mpr (fun hh => h hh.symm)]
      simp

lemma domainNameFilterLoop_nil_of_no_match (names : List String) :
    ∀ (items : List CFDomain), (∀ d ∈ items, d.specName ∉ names) →
      domainNameFilterLoop names items = [] := by
  intro items
  induction items with
  | nil => intro _; rfl
  | cons d ds ih =>
    intro h
    simp only [domainNameFilterLoop]
    rw [appendNameMatches_nil_of_not_mem d names (h d (List.mem_cons_self d ds)),
      List.nil_append]
    exact ih (fun d2 hd2 => h d2 (List.mem_cons_of_mem d hd2))

/-! ## Claim theorems -/

/-- Claim C1: when the store get behind `GetDomain` fails with a structured
reason of "not found" or with a reason of "unauthorized", `GetDomain` returns
the single collapsed `PermissionDeniedOrNotFound` error kind, so for the same
identifier a caller without read access observes exactly the same outcome as
when the object does not exist. -/
theorem getDomain_collapses_notFound_and_unauthorized
    (storeGet1 storeGet2 : String → Except K8sErr CFDomain)
    (domainGUID : String) (m1 m2 : String)
    (h1 : storeGet1 domainGUID = .error (.statusError .notFound m1))
    (h2 : storeGet2 domainGUID = .error (.statusError .unauthorized m2)) :
    resultKind (GetDomain storeGet1 domainGUID) = some .permissionDeniedOrNotFoundKind ∧
    resultKind (GetDomain storeGet2 domainGUID) = some .permissionDeniedOrNotFoundKind ∧
    resultKind (GetDomain storeGet1 domainGUID) =
      resultKind (GetDomain storeGet2 domainGUID) := by
  refine ⟨?_, ?_, ?_⟩ <;>
    simp [GetDomain, h1, h2, resultKind, RepoErr.kind]

/-- Witness for C1: an object-not-found store failure and a permission-denied
store failure for the same identifier surface as the same kind. -/
theorem getDomain_collapses_notFound_and_unauthorized_witness :
    resultKind (GetDomain (fun _ => .error (.statusError .notFound "nf")) "domain-1") =
      some .permissionDeniedOrNotFoundKind ∧
    resultKind (GetDomain (fun _ => .error (.statusError .unauthorized "ua")) "domain-1") =
      some .permissionDeniedOrNotFoundKind ∧
    resultKind (GetDomain (fun _ => .error (.statusError .notFound "nf")) "domain-1") =
      resultKind (GetDomain (fun _ => .error (.statusError .unauthorized "ua")) "domain-1") :=
  getDomain_collapses_notFound_and_unauthorized _ _ "domain-1" "nf" "ua" rfl rfl

/-- Claim C4: for an AuthInfo whose scheme is neither bearer nor
client-certificate, `BuildClient` returns the `NotAuthenticated` error kind,
distinct from transport/unknown, and control never reaches client
construction, so no store call is attempted. -/
theorem buildClient_unsupported_scheme_not_authenticated
    (pemDecode : List Nat → Option (List Nat × List Nat))
    (pemEncodeToMemory : List Nat → List Nat)
    (base : RestConfig) (authInfo : AuthInfo)
    (hb : toLowerStr authInfo.scheme ≠ BearerScheme)
    (hc : toLowerStr authInfo.scheme ≠ CertScheme) :
    BuildClient pemDecode pemEncodeToMemory base authInfo = .notAuthenticated ∧
    storeCallAttempted (BuildClient pemDecode pemEncodeToMemory base authInfo) = false ∧
    buildFailureKind (BuildClient pemDecode pemEncodeToMemory base authInfo) =
      some .notAuthenticatedKind ∧
    some ClientBuildErrKind.notAuthenticatedKind ≠ some ClientBuildErrKind.unknownKind := by
  have hb2 : (toLowerStr authInfo.scheme == BearerScheme) = false := beq_eq_false_iff_ne.mpr hb
  have hc2 : (toLowerStr authInfo.scheme == CertScheme) = false := beq_eq_false_iff_ne.mpr hc
  refine ⟨?_, ?_, ?_, by simp⟩ <;>
    simp [BuildClient, hb2, hc2, storeCallAttempted, buildFailureKind]

/-- Witness for C4 at a concrete unsupported scheme. -/
theorem buildClient_unsupported_scheme_not_authenticated_witness :
    BuildClient (fun _ => none) id
      { bearerToken := "", certData := [], keyData := [] }
      { scheme := "basic", token := "tok", certData := [] } = .notAuthenticated ∧
    storeCallAttempted (BuildClient (fun _ => none) id
      { bearerToken := "", certData := [], keyData := [] }
      { scheme := "basic", token := "tok", certData := [] }) = false ∧
    buildFailureKind (BuildClient (fun _ => none) id
      { bearerToken := "", certData := [], keyData := [] }
      { scheme := "basic", token := "tok", certData := [] }) =
      some .notAuthenticatedKind ∧
    some ClientBuildErrKind.notAuthenticatedKind ≠ some ClientBuildErrKind.unknownKind :=
  buildClient_unsupported_scheme_not_authenticated _ _ _ _ (by decide) (by decide)

/-- Claim C6: for a certificate-scheme AuthInfo whose certificate PEM block or
key PEM block fails to decode, `BuildClient` fails with a transport/unknown
error before any network call, and never reaches client construction (no
fallback to an unauthenticated client). -/
theorem buildClient_cert_pem_decode_failure
    (pemDecode : List Nat → Option (List Nat × List Nat))
    (pemEncodeToMemory : List Nat → List Nat)
    (base : RestConfig) (authInfo : AuthInfo)
    (hs : toLowerStr authInfo.scheme = CertScheme) :
    (pemDecode authInfo.certData = none →
      BuildClient pemDecode pemEncodeToMemory base authInfo = .certPemDecodeFailed ∧
      storeCallAttempted (BuildClient pemDecode pemEncodeToMemory base authInfo) = false ∧
      buildFailureKind (BuildClient pemDecode pemEncodeToMemory base authInfo) =
        some .unknownKind) ∧
    (∀ certBlock rst, pemDecode authInfo.certData = some (certBlock, rst) →
      pemDecode rst = none →
      BuildClient pemDecode pemEncodeToMemory base authInfo = .keyPemDecodeFailed ∧
      storeCallAttempted (BuildClient pemDecode pemEncodeToMemory base authInfo) = false ∧
      buildFailureKind (BuildClient pemDecode pemEncodeToMemory base authInfo) =
        some .unknownKind) := by
  have hb2 : (toLowerStr authInfo.scheme == BearerScheme) = false := by
    rw [hs]
    decide
  have hc2 : (toLowerStr authInfo.scheme == CertScheme) = true := beq_iff_eq.mpr hs
  constructor
  · intro hd
    refine ⟨?_, ?_, ?_⟩ <;>
      simp [BuildClient, hb2, hc2, hd, storeCallAttempted, buildFailureKind]
  · intro certBlock rst hd hk
    refine ⟨?_, ?_, ?_⟩ <;>
      simp [BuildClient, hb2, hc2, hd, hk, storeCallAttempted, buildFailureKind]

/-- Witness for C6 at concrete decode outcomes: a failing certificate block,
and a certificate block that decodes while the key block fails. -/
theorem buildClient_cert_pem_decode_failure_witness :
    (BuildClient (fun _ => none) id
      { bearerToken := "", certData := [], keyData := [] }
      { scheme := "clientcert", token := "", certData := [0] } = .certPemDecodeFailed ∧
      storeCallAttempted (BuildClient (fun _ => none) id
        { bearerToken := "", certData := [], keyData := [] }
        { scheme := "clientcert", token := "", certData := [0] }) = false ∧
      buildFailureKind (BuildClient (fun _ => none) id
        { bearerToken := "", certData := [], keyData := [] }
        { scheme := "clientcert", token := "", certData := [0] }) = some .unknownKind) ∧
    (BuildClient (fun bytes => if bytes = [0] then some ([1], [2]) else none) id
      { bearerToken := "", certData := [], keyData := [] }
      { scheme := "clientcert", token := "", certData := [0] } = .keyPemDecodeFailed ∧
      storeCallAttempted (BuildClient (fun bytes => if bytes = [0] then some ([1], [2]) else none) id
        { bearerToken := "", certData := [], keyData := [] }
        { scheme := "clientcert", token := "", certData := [0] }) = false ∧
      buildFailureKind (BuildClient (fun bytes => if bytes = [0] then some ([1], [2]) else none) id
        { bearerToken := "", certData := [], keyData := [] }
        { scheme := "clientcert", token := "", certData := [0] }) = some .unknownKind) := by
  constructor
  · exact (buildClient_cert_pem_decode_failure _ _ _ _ (by decide)).1 rfl
  · exact (buildClient_cert_pem_decode_failure _ _ _ _ (by decide)).2 [1] [2] (by decide) (by decide)

/-- Claim C5: a get-by-identifier on Package or Route that finds more than one
store object carrying the requested identifier fails with the distinct
duplicate-object error — not a not-found error — and never returns one of the
matching objects. -/
theorem get_by_identifier_duplicate_object_error
    (packages : List CFPackage) (routes : List CFRoute) (guid : String)
    (hp : 2 ≤ (filterPackagesByMetadataName packages guid).length)
    (hr : 2 ≤ (filterRoutesByMetadataName routes guid).length) :
    GetPackage (.ok packages) guid = .error (.duplicateErr "duplicate packages exist") ∧
    resultKind (GetPackage (.ok packages) guid) = some .duplicateKind ∧
    GetRoute (.ok routes) guid = .error (.duplicateErr "duplicate route GUID exists") ∧
    resultKind (GetRoute (.ok routes) guid) = some .duplicateKind ∧
    some ErrKind.duplicateKind ≠ some ErrKind.permissionDeniedOrNotFoundKind := by
  refine ⟨?_, ?_, ?_, ?_, by simp⟩
  all_goals {
    first
    | (cases hl : filterPackagesByMetadataName packages guid with
       | nil => rw [hl] at hp; simp at hp
       | cons a t =>
         cases t with
         | nil => rw [hl] at hp; simp at hp
         | cons b t2 => simp [GetPackage, hl, returnPackage, resultKind, RepoErr.kind])
    | (cases hl : filterRoutesByMetadataName routes guid with
       | nil => rw [hl] at hr; simp at hr
       | cons a t =>
         cases t with
         | nil => rw [hl] at hr; simp at hr
         | cons b t2 => simp [GetRoute, hl, returnRoute, resultKind, RepoErr.kind])
  }

/-- Witness for C5: two packages and two routes in different namespaces
sharing one identifier. -/
theorem get_by_identifier_duplicate_object_error_witness :
    GetPackage (.ok
      [{ name := "obj-1", namespaceName := "ns-1", uid := "u1", specType := "bits",
         appRefName := "a1", sourceRegistryImage := "", creationTimestamp := 1, updatedAt := 1 },
       { name := "obj-1", namespaceName := "ns-2", uid := "u2", specType := "bits",
         appRefName := "a2", sourceRegistryImage := "", creationTimestamp := 2, updatedAt := 2 }])
      "obj-1" = .error (.duplicateErr "duplicate packages exist") ∧
    resultKind (GetPackage (.ok
      [{ name := "obj-1", namespaceName := "ns-1", uid := "u1", specType := "bits",
         appRefName := "a1", sourceRegistryImage := "", creationTimestamp := 1, updatedAt := 1 },
       { name := "obj-1", namespaceName := "ns-2", uid := "u2", specType := "bits",
         appRefName := "a2", sourceRegistryImage := "", creationTimestamp := 2, updatedAt := 2 }])
      "obj-1") = some .duplicateKind ∧
    GetRoute (.ok
      [{ name := "obj-1", namespaceName := "ns-1", host := "h", path := "", protocol := "http",
         domainGUID := "d", destinations := [] },
       { name := "obj-1", namespaceName := "ns-2", host := "h", path := "", protocol := "http",
         domainGUID := "d", destinations := [] }])
      "obj-1" = .error (.duplicateErr "duplicate route GUID exists") ∧
    resultKind (GetRoute (.ok
      [{ name := "obj-1", namespaceName := "ns-1", host := "h", path := "", protocol := "http",
         domainGUID := "d", destinations := [] },
       { name := "obj-1", namespaceName := "ns-2", host := "h", path := "", protocol := "http",
         domainGUID := "d", destinations := [] }])
      "obj-1") = some .duplicateKind ∧
    some ErrKind.duplicateKind ≠ some ErrKind.permissionDeniedOrNotFoundKind :=
  get_by_identifier_duplicate_object_error _ _ "obj-1" (by decide) (by decide)

/-- Claim C2 counterexample: two domains share a creation timestamp and the
store returns them in the order `[b-domain, a-domain]`, opposite to the order
of their store-assigned identifiers ("guid-a" sorts before "guid-b").  The
comparator looks only at creation instants, so for this two-element slice Go's
`sort.Slice` (an insertion sort at this length) leaves the pair in store
order, not identifier order — refuting the identifier tie-break. -/
theorem listOrdering_identifier_tiebreak_counterexample :
    applyDomainListFilterAndOrder
      [{ name := "guid-b", creationTimestamp := 5, updatedAt := 5, specName := "tie.example.com" },
       { name := "guid-a", creationTimestamp := 5, updatedAt := 5, specName := "tie.example.com" }]
      { names := [] } =
      [{ name := "guid-b", creationTimestamp := 5, updatedAt := 5, specName := "tie.example.com" },
       { name := "guid-a", creationTimestamp := 5, updatedAt := 5, specName := "tie.example.com" }] ∧
    ("guid-a".data < "guid-b".data) := by
  exact ⟨by decide, by decide⟩

/-- Claim C2 (amended): list results are ordered by creation time — for
`ListDomains` always ascending (the message offers no way to request
descending), for `ListPackages` ascending unless the message requests
"created_at" descending, in which case descending.  The comparators never
inspect identifiers, so objects with equal creation timestamps are left in
the order the store returned them rather than ordered by identifier. -/
theorem listOrdering_by_creation_time :
    (∀ (items : List CFDomain) (message : ListDomainsMessage),
      (applyDomainListFilterAndOrder items message).Pairwise
        (fun a b => a.creationTimestamp ≤ b.creationTimestamp)) ∧
    (∀ (packages : List CFPackage) (message : ListPackagesMessage),
      (message.sortBy == "created_at" && message.descendingOrder) = false →
      (orderPackages packages message).Pairwise
        (fun a b => a.creationTimestamp ≤ b.creationTimestamp)) ∧
    (∀ (packages : List CFPackage) (message : ListPackagesMessage),
      (message.sortBy == "created_at" && message.descendingOrder) = true →
      (orderPackages packages message).Pairwise
        (fun a b => b.creationTimestamp ≤ a.creationTimestamp)) := by
  refine ⟨?_, ?_, ?_⟩
  · intro items message
    apply sortSlice_pairwise
    · intro a b h
      simp only [domainLess, decide_eq_true_eq] at h
      omega
    · intro a b h
      simp only [domainLess, decide_eq_false_iff_not] at h
      omega
    · intro a b c h1 h2
      omega
  · intro packages message hflag
    apply sortSlice_pairwise
    · intro a b h
      simp only [packageLess, hflag, if_false, Bool.false_eq_true,
        decide_eq_true_eq] at h
      omega
    · intro a b h
      simp only [packageLess, hflag, if_false, Bool.false_eq_true,
        decide_eq_false_iff_not] at h
      omega
    · intro a b c h1 h2
      omega
  · intro packages message hflag
    apply sortSlice_pairwise
    · intro a b h
      simp [packageLess, hflag] at h
      omega
    · intro a b h
      simp [packageLess, hflag] at h
      omega
    · intro a b c h1 h2
      omega

/-- Witness for the amended C2 at concrete collections: an ascending domain
sort, an ascending package sort under the default message, and a descending
package sort when "created_at" descending is requested. -/
theorem listOrdering_by_creation_time_witness :
    (applyDomainListFilterAndOrder
      [{ name := "d2", creationTimestamp := 9, updatedAt := 9, specName := "x.com" },
       { name := "d1", creationTimestamp := 3, updatedAt := 3, specName := "y.com" }]
      { names := [] }).Pairwise
        (fun a b => a.creationTimestamp ≤ b.creationTimestamp) ∧
    (orderPackages
      [{ name := "p2", namespaceName := "ns", uid := "u2", specType := "bits",
         appRefName := "a", sourceRegistryImage := "", creationTimestamp := 9, updatedAt := 9 },
       { name := "p1", namespaceName := "ns", uid := "u1", specType := "bits",
         appRefName := "a", sourceRegistryImage := "", creationTimestamp := 3, updatedAt := 3 }]
      { appGUIDs := [], sortBy := "", descendingOrder := false, states := [] }).Pairwise
        (fun a b => a.creationTimestamp ≤ b.creationTimestamp) ∧
    (orderPackages
      [{ name := "p1", namespaceName := "ns", uid := "u1", specType := "bits",
         appRefName := "a", sourceRegistryImage := "", creationTimestamp := 3, updatedAt := 3 },
       { name := "p2", namespaceName := "ns", uid := "u2", specType := "bits",
         appRefName := "a", sourceRegistryImage := "", creationTimestamp := 9, updatedAt := 9 }]
      { appGUIDs := [], sortBy := "created_at", descendingOrder := true, states := [] }).Pairwise
        (fun a b => b.creationTimestamp ≤ a.creationTimestamp) :=
  ⟨listOrdering_by_creation_time.1 _ _,
   listOrdering_by_creation_time.2.1 _ _ (by decide),
   listOrdering_by_creation_time.2.2 _ _ (by decide)⟩

/-- Claim C7: a list operation with an empty filter set returns the full
unfiltered collection (a permutation of the store list, nothing dropped)
ordered by creation time ascending under the default ordering; a non-empty
filter matching no object returns the empty list with no error. -/
theorem list_empty_filter_full_and_no_match_empty :
    (∀ (items : List CFDomain),
      ListDomains (.ok items) { names := [] } =
        .ok ((sortSlice domainLess items).map cfDomainToDomainRecord) ∧
      List.Perm (sortSlice domainLess items) items ∧
      (sortSlice domainLess items).Pairwise
        (fun a b => a.creationTimestamp ≤ b.creationTimestamp)) ∧
    (∀ (items : List CFDomain) (message : ListDomainsMessage),
      message.names ≠ [] → (∀ d ∈ items, d.specName ∉ message.names) →
      ListDomains (.ok items) message = .ok []) ∧
    (∀ (items : List CFPackage) (message : ListPackagesMessage),
      message.appGUIDs = [] → message.states = [] →
      (message.sortBy == "created_at" && message.descendingOrder) = false →
      ListPackages (.ok items) message =
        .ok ((sortSlice (packageLess message) items).map cfPackageToPackageRecord) ∧
      List.Perm (sortSlice (packageLess message) items) items ∧
      (sortSlice (packageLess message) items).Pairwise
        (fun a b => a.creationTimestamp ≤ b.creationTimestamp)) ∧
    (∀ (items : List CFPackage) (message : ListPackagesMessage),
      message.appGUIDs ≠ [] → (∀ p ∈ items, p.appRefName ∉ message.appGUIDs) →
      ListPackages (.ok items) message = .ok []) := by
  refine ⟨?_, ?_, ?_, ?_⟩
  · intro items
    refine ⟨by simp [ListDomains, applyDomainListFilterAndOrder, returnDomainList],
      sortSlice_perm _ _, ?_⟩
    apply sortSlice_pairwise
    · intro a b h
      simp [domainLess] at h
      omega
    · intro a b h
      simp [domainLess] at h
      omega
    · intro a b c h1 h2
      omega
  · intro items message hne hnm
    have hlen : 0 < message.names.length := List.length_pos.mpr hne
    simp [ListDomains, applyDomainListFilterAndOrder, hlen,
      domainNameFilterLoop_nil_of_no_match message.names items hnm,
      sortSlice, returnDomainList]
  · intro items message happ hstates hflag
    refine ⟨by simp [ListPackages, applyPackageFilter, happ, hstates,
        convertToPackageRecords, orderPackages], sortSlice_perm _ _, ?_⟩
    apply sortSlice_pairwise
    · intro a b h
      simp [packageLess, hflag] at h
      omega
    · intro a b h
      simp [packageLess, hflag] at h
      omega
    · intro a b c h1 h2
      omega
  · intro items message hne hnm
    have hlen : 0 < message.appGUIDs.length := List.length_pos.mpr hne
    have hfilter : (convertToPackageRecords (orderPackages items message)).filter
        (fun p => message.appGUIDs.any (fun g => p.appGUID == g)) = [] := by
      rw [List.filter_eq_nil_iff]
      intro r hr
      obtain ⟨p, hp, rfl⟩ := List.mem_map.mp hr
      have hp2 : p ∈ items := (sortSlice_perm (packageLess message) items).subset hp
      intro hany
      obtain ⟨g, hg, heq⟩ := List.any_eq_true.mp hany
      have hgr : p.appRefName = g := beq_iff_eq.mp heq
      exact hnm p hp2 (hgr ▸ hg)
    simp only [ListPackages, applyPackageFilter]
    rw [if_pos hlen, hfilter]
    by_cases hst : message.states.length > 0
    · simp [hst]
    · simp [hst]

/-- Witness for C7 at concrete collections: empty domain filter, non-matching
domain filter, empty package filter, non-matching package filter. -/
theorem list_empty_filter_full_and_no_match_empty_witness :
    (ListDomains (.ok
        [{ name := "d1", creationTimestamp := 3, updatedAt := 3, specName := "x.com" }])
        { names := [] } =
      .ok ((sortSlice domainLess
        [{ name := "d1", creationTimestamp := 3, updatedAt := 3, specName := "x.com" }]).map
          cfDomainToDomainRecord)) ∧
    (ListDomains (.ok
        [{ name := "d1", creationTimestamp := 3, updatedAt := 3, specName := "x.com" }])
        { names := ["nomatch.com"] } = .ok []) ∧
    (ListPackages (.ok
        [{ name := "p1", namespaceName := "ns", uid := "u1", specType := "bits",
           appRefName := "a1", sourceRegistryImage := "", creationTimestamp := 3,
           updatedAt := 3 }])
        { appGUIDs := [], sortBy := "", descendingOrder := false, states := [] } =
      .ok ((sortSlice
          (packageLess { appGUIDs := [], sortBy := "", descendingOrder := false, states := [] })
          [{ name := "p1", namespaceName := "ns", uid := "u1", specType := "bits",
             appRefName := "a1", sourceRegistryImage := "", creationTimestamp := 3,
             updatedAt := 3 }]).map cfPackageToPackageRecord)) ∧
    (ListPackages (.ok
        [{ name := "p1", namespaceName := "ns", uid := "u1", specType := "bits",
           appRefName := "a1", sourceRegistryImage := "", creationTimestamp := 3,
           updatedAt := 3 }])
        { appGUIDs := ["other-app"], sortBy := "", descendingOrder := false, states := [] } =
      .ok []) :=
  ⟨(list_empty_filter_full_and_no_match_empty.1 _).1,
   list_empty_filter_full_and_no_match_empty.2.1 _ _ (by decide) (by decide),
   (list_empty_filter_full_and_no_match_empty.2.2.1 _ _ rfl rfl (by decide)).1,
   list_empty_filter_full_and_no_match_empty.2.2.2 _ _ (by decide) (by decide)⟩

/-- Claim C9: when two or more domains carry the requested name,
`GetDomainByName` succeeds — rather than failing with a duplicate-object
error — and returns the record of the first matching domain of the
creation-time-ascending ordering (a matching domain of minimal creation
instant), unlike Route and Package lookup. -/
theorem getDomainByName_duplicates_returns_first
    (items : List CFDomain) (domainName : String)
    (hdup : 2 ≤ (items.filter (fun d => d.specName == domainName)).length) :
    ∃ d, d ∈ items.filter (fun d2 => d2.specName == domainName) ∧
      GetDomainByName (.ok items) domainName = .ok (cfDomainToDomainRecord d) ∧
      ∀ d2 ∈ items.filter (fun d3 => d3.specName == domainName),
        d.creationTimestamp ≤ d2.creationTimestamp := by
  have hfl : applyDomainListFilterAndOrder items { names := [domainName] } =
      sortSlice domainLess (items.filter (fun d => d.specName == domainName)) := by
    simp [applyDomainListFilterAndOrder, domainNameFilterLoop_single]
  have hperm := sortSlice_perm domainLess
    (items.filter (fun d => d.specName == domainName))
  have hpw : (sortSlice domainLess
      (items.filter (fun d => d.specName == domainName))).Pairwise
      (fun a b => a.creationTimestamp ≤ b.creationTimestamp) := by
    apply sortSlice_pairwise
    · intro a b h
      simp [domainLess] at h
      omega
    · intro a b h
      simp [domainLess] at h
      omega
    · intro a b c h1 h2
      omega
  have hlen : 2 ≤ (sortSlice domainLess
      (items.filter (fun d => d.specName == domainName))).length := by
    rw [hperm.length_eq]
    exact hdup
  cases hs : sortSlice domainLess (items.filter (fun d => d.specName == domainName)) with
  | nil =>
    rw [hs] at hlen
    simp at hlen
  | cons d rest =>
    refine ⟨d, ?_, ?_, ?_⟩
    · have hd : d ∈ sortSlice domainLess
          (items.filter (fun d2 => d2.specName == domainName)) := by
        rw [hs]
        exact List.mem_cons_self d rest
      exact hperm.subset hd
    · simp [GetDomainByName, ListDomains, returnDomainList, hfl, hs]
    · intro d2 hd2
      have hmem : d2 ∈ sortSlice domainLess
          (items.filter (fun d3 => d3.specName == domainName)) :=
        hperm.mem_iff.mpr hd2
      rw [hs] at hmem hpw
      rcases List.mem_cons.mp hmem with heq | hmem2
      · rw [heq]
      · exact (List.pairwise_cons.mp hpw).1 d2 hmem2

/-- Witness for C9: two domains named "dup.com", the later-created one listed
first by the store; the lookup succeeds with the earlier-created record. -/
theorem getDomainByName_duplicates_returns_first_witness :
    ∃ d, d ∈ ([{ name := "g2", creationTimestamp := 9, updatedAt := 9, specName := "dup.com" },
               { name := "g1", creationTimestamp := 3, updatedAt := 3, specName := "dup.com" }] :
        List CFDomain).filter (fun d2 => d2.specName == "dup.com") ∧
      GetDomainByName (.ok
        [{ name := "g2", creationTimestamp := 9, updatedAt := 9, specName := "dup.com" },
         { name := "g1", creationTimestamp := 3, updatedAt := 3, specName := "dup.com" }])
        "dup.com" = .ok (cfDomainToDomainRecord d) ∧
      ∀ d2 ∈ ([{ name := "g2", creationTimestamp := 9, updatedAt := 9, specName := "dup.com" },
               { name := "g1", creationTimestamp := 3, updatedAt := 3, specName := "dup.com" }] :
          List CFDomain).filter (fun d3 => d3.specName == "dup.com"),
        d.creationTimestamp ≤ d2.creationTimestamp :=
  getDomainByName_duplicates_returns_first _ "dup.com" (by decide)

/-- Claim C10: the domain name filter appends one result per matching filter
entry without de-duplicating — a domain appears in the filtered list once per
occurrence of its name in the message's Names (times its own multiplicity in
the store list), and the returned record list is exactly the mapped image of
that list, so the result need not contain each store object at most once. -/
theorem listDomains_filter_entry_multiplicity
    (items : List CFDomain) (message : ListDomainsMessage) (d : CFDomain)
    (hne : message.names ≠ []) :
    (applyDomainListFilterAndOrder items message).count d =
      items.count d * message.names.count d.specName ∧
    ListDomains (.ok items) message =
      .ok ((applyDomainListFilterAndOrder items message).map cfDomainToDomainRecord) := by
  constructor
  · have hlen : 0 < message.names.length := List.length_pos.mpr hne
    have h1 : applyDomainListFilterAndOrder items message =
        sortSlice domainLess (domainNameFilterLoop message.names items) := by
      simp [applyDomainListFilterAndOrder, hlen]
    rw [h1, (sortSlice_perm domainLess _).count_eq]
    exact domainNameFilterLoop_count message.names d items
  · rfl

/-- Witness for C10: with the name "dup.com" listed twice in the filter, the
single matching domain appears twice in the result. -/
theorem listDomains_filter_entry_multiplicity_witness :
    (applyDomainListFilterAndOrder
      [{ name := "g1", creationTimestamp := 3, updatedAt := 3, specName := "dup.com" }]
      { names := ["dup.com", "dup.com"] }).count
        { name := "g1", creationTimestamp := 3, updatedAt := 3, specName := "dup.com" } =
      ([{ name := "g1", creationTimestamp := 3, updatedAt := 3, specName := "dup.com" }] :
        List CFDomain).count
          { name := "g1", creationTimestamp := 3, updatedAt := 3, specName := "dup.com" } *
        (["dup.com", "dup.com"] : List String).count
          ({ name := "g1", creationTimestamp := 3, updatedAt := 3,
             specName := "dup.com" } : CFDomain).specName ∧
    ListDomains (.ok
        [{ name := "g1", creationTimestamp := 3, updatedAt := 3, specName := "dup.com" }])
        { names := ["dup.com", "dup.com"] } =
      .ok ((applyDomainListFilterAndOrder
        [{ name := "g1", creationTimestamp := 3, updatedAt := 3, specName := "dup.com" }]
        { names := ["dup.com", "dup.com"] }).map cfDomainToDomainRecord) :=
  listDomains_filter_entry_multiplicity _ _ _ (by decide)

/-! ## Lemmas about the destination merge -/

lemma mem_of_mem_dedupByKey :
    ∀ {l : List DestinationMessage} {m : DestinationMessage},
      m ∈ dedupByKey l → m ∈ l := by
  intro l
  induction l with
  | nil => intro m hm; simp [dedupByKey] at hm
  | cons m0 rest ih =>
    intro m hm
    simp only [dedupByKey, List.mem_cons] at hm
    rcases hm with rfl | hm2
    · exact List.mem_cons_self m rest
    · exact List.mem_cons_of_mem m0 (ih (List.mem_filter.mp hm2).1)

lemma dedupByKey_keys_mem (k : String × String × Nat × String) :
    ∀ (l : List DestinationMessage),
      (k ∈ (dedupByKey l).map DestinationMessage.key ↔
        k ∈ l.map DestinationMessage.key) := by
  intro l
  induction l with
  | nil => simp [dedupByKey]
  | cons m0 rest ih =>
    simp only [dedupByKey, List.map_cons, List.mem_cons, List.mem_map,
      List.mem_filter] at ih ⊢
    constructor
    · rintro (rfl | ⟨m2, ⟨hm2, _⟩, rfl⟩)
      · exact Or.inl rfl
      · exact Or.inr (ih.mp ⟨m2, hm2, rfl⟩)
    · rintro (rfl | ⟨m2, hm2, rfl⟩)
      · exact Or.inl rfl
      · by_cases hk : m2.key = m0.key
        · exact Or.inl hk
        · obtain ⟨m3, hm3, hk3⟩ := ih.mpr ⟨m2, hm2, rfl⟩
          refine Or.inr ⟨m3, ⟨hm3, ?_⟩, hk3⟩
          rw [bne_iff_ne]
          rw [hk3]
          exact hk

lemma dedupByKey_keys_nodup :
    ∀ (l : List DestinationMessage), ((dedupByKey l).map DestinationMessage.key).Nodup := by
  intro l
  induction l with
  | nil => simp [dedupByKey]
  | cons m0 rest ih =>
    simp only [dedupByKey, List.map_cons]
    refine List.Nodup.cons ?_ ?_
    · intro hmem
      obtain ⟨m2, hm2, hk2⟩ := List.mem_map.mp hmem
      have hne := (List.mem_filter.mp hm2).2
      rw [bne_iff_ne] at hne
      exact hne hk2
    · exact ih.sublist ((List.filter_sublist (dedupByKey rest)).map DestinationMessage.key)

lemma mergeDestinations_keys (existing : List DestinationRecord)
    (requested : List DestinationMessage) (freshGUID : Nat → String) :
    (mergeDestinations existing requested freshGUID).map DestinationRecord.key =
      existing.map DestinationRecord.key ++
        ((dedupByKey requested).filter
          (fun m => !(existing.any (fun e => e.key == m.key)))).map
            DestinationMessage.key := by
  simp only [mergeDestinations, List.map_append]
  congr 1
  rw [List.map_map]
  have h2 : (DestinationRecord.key ∘ fun p : Nat × DestinationMessage =>
      p.2.toRecord (freshGUID p.1)) = (DestinationMessage.key ∘ Prod.snd) := rfl
  rw [h2, ← List.map_map, List.enum_map_snd]

lemma mergeDestinations_key_mem (existing : List DestinationRecord)
    (requested : List DestinationMessage) (freshGUID : Nat → String)
    (k : String × String × Nat × String) :
    k ∈ (mergeDestinations existing requested freshGUID).map DestinationRecord.key ↔
      (k ∈ existing.map DestinationRecord.key ∨
        k ∈ requested.map DestinationMessage.key) := by
  rw [mergeDestinations_keys, List.mem_append]
  constructor
  · rintro (h | h)
    · exact Or.inl h
    · obtain ⟨m, hm, rfl⟩ := List.mem_map.mp h
      exact Or.inr ((dedupByKey_keys_mem _ _).mp
        (List.mem_map.mpr ⟨m, (List.mem_filter.mp hm).1, rfl⟩))
  · rintro (h | h)
    · exact Or.inl h
    · by_cases he : k ∈ existing.map DestinationRecord.key
      · exact Or.inl he
      · obtain ⟨m, hm, rfl⟩ := List.mem_map.mp ((dedupByKey_keys_mem _ _).mpr h)
        refine Or.inr (List.mem_map.mpr ⟨m, List.mem_filter.mpr ⟨hm, ?_⟩, rfl⟩)
        have hany : (existing.any (fun e => e.key == m.key)) = false := by
          rw [List.any_eq_false]
          intro e hel hc
          exact he (List.mem_map.mpr ⟨e, hel, beq_iff_eq.mp hc⟩)
        simp [hany]

lemma mergeDestinations_keys_nodup (existing : List DestinationRecord)
    (requested : List DestinationMessage) (freshGUID : Nat → String)
    (h : (existing.map DestinationRecord.key).Nodup) :
    ((mergeDestinations existing requested freshGUID).map DestinationRecord.key).Nodup := by
  rw [mergeDestinations_keys]
  refine h.append ?_ ?_
  · exact (dedupByKey_keys_nodup requested).sublist
      ((List.filter_sublist (dedupByKey requested)).map DestinationMessage.key)
  · intro k hk1 hk2
    obtain ⟨m, hm, rfl⟩ := List.mem_map.mp hk2
    have hcond := (List.mem_filter.mp hm).2
    obtain ⟨e, hel, hek⟩ := List.mem_map.mp hk1
    have : (existing.any (fun e2 => e2.key == m.key)) = true :=
      List.any_eq_true.mpr ⟨e, hel, beq_iff_eq.mpr hek⟩
    simp [this] at hcond

lemma mergeDestinations_idem (existing : List DestinationRecord)
    (requested : List DestinationMessage) (freshGUID freshGUID2 : Nat → String) :
    mergeDestinations (mergeDestinations existing requested freshGUID)
        requested freshGUID2 =
      mergeDestinations existing requested freshGUID := by
  have hnil : (dedupByKey requested).filter
      (fun m => !((mergeDestinations existing requested freshGUID).any
        (fun e => e.key == m.key))) = [] := by
    rw [List.filter_eq_nil_iff]
    intro m hm
    have hk : m.key ∈
        (mergeDestinations existing requested freshGUID).map DestinationRecord.key :=
      (mergeDestinations_key_mem existing requested freshGUID m.key).mpr
        (Or.inr (List.mem_map.mpr ⟨m, mem_of_mem_dedupByKey hm, rfl⟩))
    obtain ⟨e, he, hek⟩ := List.mem_map.mp hk
    have hany : ((mergeDestinations existing requested freshGUID).any
        (fun e2 => e2.key == m.key)) = true :=
      List.any_eq_true.mpr ⟨e, he, beq_iff_eq.mpr hek⟩
    simp [hany]
  conv_lhs => rw [mergeDestinations]
  rw [hnil]
  simp

lemma mergeDestinations_noop (existing : List DestinationRecord)
    (requested : List DestinationMessage) (freshGUID : Nat → String)
    (h : ∀ m ∈ requested, (existing.any (fun e => e.key == m.key)) = true) :
    mergeDestinations existing requested freshGUID = existing := by
  have hnil : (dedupByKey requested).filter
      (fun m => !(existing.any (fun e => e.key == m.key))) = [] := by
    rw [List.filter_eq_nil_iff]
    intro m hm
    have := h m (mem_of_mem_dedupByKey hm)
    simp [this]
  conv_lhs => rw [mergeDestinations]
  rw [hnil]
  simp

/-- Claim C3: `AddDestinationsToRoute` produces the union of the existing
destination set with the requested additions de-duplicated under the key
(AppGUID, ProcessType, Port, Protocol): the resulting key set is exactly the
union of the two key sets; the result stays duplicate-free whenever the
existing set is; internal duplicates and already-present entries are dropped
silently; running the same merge again adds zero entries (idempotence); and
when every requested addition is already present the result is the unchanged
existing set (the patch is a no-op and the call still succeeds). -/
theorem addDestinationsToRoute_merge_semantics
    (message : AddDestinationsToRouteMessage) (freshGUID freshGUID2 : Nat → String) :
    (∀ k, k ∈ (AddDestinationsToRoute message freshGUID).map DestinationRecord.key ↔
      (k ∈ message.existingDestinations.map DestinationRecord.key ∨
        k ∈ message.newDestinations.map DestinationMessage.key)) ∧
    ((message.existingDestinations.map DestinationRecord.key).Nodup →
      ((AddDestinationsToRoute message freshGUID).map DestinationRecord.key).Nodup) ∧
    AddDestinationsToRoute
      { message with existingDestinations := AddDestinationsToRoute message freshGUID }
      freshGUID2 = AddDestinationsToRoute message freshGUID ∧
    ((∀ m ∈ message.newDestinations,
        (message.existingDestinations.any (fun e => e.key == m.key)) = true) →
      AddDestinationsToRoute message freshGUID = message.existingDestinations) := by
  refine ⟨?_, ?_, ?_, ?_⟩
  · intro k
    exact mergeDestinations_key_mem message.existingDestinations
      message.newDestinations freshGUID k
  · intro h
    exact mergeDestinations_keys_nodup message.existingDestinations
      message.newDestinations freshGUID h
  · exact mergeDestinations_idem message.existingDestinations
      message.newDestinations freshGUID freshGUID2
  · intro h
    exact mergeDestinations_noop message.existingDestinations
      message.newDestinations freshGUID h

/-- Witness for C3, mirroring the repository tests: a route with one existing
destination receives two new destinations plus an internal duplicate (the
union has three keys and stays duplicate-free, and re-running the merge
changes nothing), and a request whose only additions are already present
leaves the set unchanged. -/
theorem addDestinationsToRoute_merge_semantics_witness :
    (("a2", "worker", 9000, "http1") ∈
      (AddDestinationsToRoute
        { routeGUID := "r1", spaceGUID := "ns",
          existingDestinations :=
            [{ guid := "dest0", appGUID := "a0", processType := "web", port := 8000,
               protocol := "http1" }],
          newDestinations :=
            [{ appGUID := "a1", processType := "web", port := 8080, protocol := "http1" },
             { appGUID := "a2", processType := "worker", port := 9000, protocol := "http1" },
             { appGUID := "a2", processType := "worker", port := 9000, protocol := "http1" }] }
        (fun i => if i = 0 then "new0" else "new1")).map DestinationRecord.key ↔
      (("a2", "worker", 9000, "http1") ∈
        ([{ guid := "dest0", appGUID := "a0", processType := "web", port := 8000,
            protocol := "http1" }] : List DestinationRecord).map DestinationRecord.key ∨
       ("a2", "worker", 9000, "http1") ∈
        ([{ appGUID := "a1", processType := "web", port := 8080, protocol := "http1" },
          { appGUID := "a2", processType := "worker", port := 9000, protocol := "http1" },
          { appGUID := "a2", processType := "worker", port := 9000, protocol := "http1" }] :
            List DestinationMessage).map DestinationMessage.key)) ∧
    ((AddDestinationsToRoute
        { routeGUID := "r1", spaceGUID := "ns",
          existingDestinations :=
            [{ guid := "dest0", appGUID := "a0", processType := "web", port := 8000,
               protocol := "http1" }],
          newDestinations :=
            [{ appGUID := "a1", processType := "web", port := 8080, protocol := "http1" },
             { appGUID := "a2", processType := "worker", port := 9000, protocol := "http1" },
             { appGUID := "a2", processType := "worker", port := 9000, protocol := "http1" }] }
        (fun i => if i = 0 then "new0" else "new1")).map DestinationRecord.key).Nodup ∧
    AddDestinationsToRoute
      { routeGUID := "r1", spaceGUID := "ns",
        existingDestinations :=
          AddDestinationsToRoute
            { routeGUID := "r1", spaceGUID := "ns",
              existingDestinations :=
                [{ guid := "dest0", appGUID := "a0", processType := "web", port := 8000,
                   protocol := "http1" }],
              newDestinations :=
                [{ appGUID := "a1", processType := "web", port := 8080, protocol := "http1" },
                 { appGUID := "a2", processType := "worker", port := 9000, protocol := "http1" },
                 { appGUID := "a2", processType := "worker", port := 9000, protocol := "http1" }] }
            (fun i => if i = 0 then "new0" else "new1"),
        newDestinations :=
          [{ appGUID := "a1", processType := "web", port := 8080, protocol := "http1" },
           { appGUID := "a2", processType := "worker", port := 9000, protocol := "http1" },
           { appGUID := "a2", processType := "worker", port := 9000, protocol := "http1" }] }
      (fun _ => "later") =
      AddDestinationsToRoute
        { routeGUID := "r1", spaceGUID := "ns",
          existingDestinations :=
            [{ guid := "dest0", appGUID := "a0", processType := "web", port := 8000,
               protocol := "http1" }],
          newDestinations :=
            [{ appGUID := "a1", processType := "web", port := 8080, protocol := "http1" },
             { appGUID := "a2", processType := "worker", port := 9000, protocol := "http1" },
             { appGUID := "a2", processType := "worker", port := 9000, protocol := "http1" }] }
        (fun i => if i = 0 then "new0" else "new1") ∧
    AddDestinationsToRoute
      { routeGUID := "r1", spaceGUID := "ns",
        existingDestinations :=
          [{ guid := "dest0", appGUID := "a0", processType := "web", port := 8000,
             protocol := "http1" }],
        newDestinations :=
          [{ appGUID := "a0", processType := "web", port := 8000, protocol := "http1" }] }
      (fun _ => "unused") =
      [{ guid := "dest0", appGUID := "a0", processType := "web", port := 8000,
         protocol := "http1" }] :=
  ⟨(addDestinationsToRoute_merge_semantics _
      (fun i => if i = 0 then "new0" else "new1") (fun _ => "later")).1 _,
   (addDestinationsToRoute_merge_semantics _
      (fun i => if i = 0 then "new0" else "new1") (fun _ => "later")).2.1 (by decide),
   (addDestinationsToRoute_merge_semantics _
      (fun i => if i = 0 then "new0" else "new1") (fun _ => "later")).2.2.1,
   (addDestinationsToRoute_merge_semantics _ (fun _ => "unused") (fun _ => "x")).2.2.2
     (by decide)⟩

/-! ## Lemmas about get-or-create -/

lemma routeMatchesMessage_messageToCFRoute (message : CreateRouteMessage) (g : String) :
    routeMatchesMessage (messageToCFRoute message g) message = true := by
  simp [routeMatchesMessage, messageToCFRoute]

lemma getOrCreateRoute_on_existing (s : List CFRoute) (message : CreateRouteMessage)
    (g : String) (r : CFRoute) (rest : List CFRoute)
    (hfl : s.filter (fun r2 => routeMatchesMessage r2 message) = r :: rest) :
    GetOrCreateRoute s message g = .ok (cfRouteToRouteRecord r, s) := by
  have hrmem : r ∈ s.filter (fun r2 => routeMatchesMessage r2 message) := by
    rw [hfl]
    exact List.mem_cons_self r rest
  have hrs : r ∈ s := (List.mem_filter.mp hrmem).1
  have hrme : routeMatchesMessage r message = true := (List.mem_filter.mp hrmem).2
  have hany : (s.any (fun r2 =>
      r2.namespaceName == (messageToCFRoute message g).namespaceName &&
      r2.host == (messageToCFRoute message g).host &&
      r2.path == (messageToCFRoute message g).path &&
      r2.domainGUID == (messageToCFRoute message g).domainGUID)) = true :=
    List.any_eq_true.mpr ⟨r, hrs, hrme⟩
  have hstore : ∃ msg, storeCreateRoute s (messageToCFRoute message g) =
      .error (.statusError .alreadyExists msg) := by
    by_cases hname : (s.any (fun r2 =>
        r2.name == (messageToCFRoute message g).name &&
        r2.namespaceName == (messageToCFRoute message g).namespaceName)) = true
    · refine ⟨"route name already exists", ?_⟩
      simp only [storeCreateRoute, hname]
      simp
    · have hname2 : (s.any (fun r2 =>
          r2.name == (messageToCFRoute message g).name &&
          r2.namespaceName == (messageToCFRoute message g).namespaceName)) = false :=
        Bool.eq_false_iff.mpr hname
      refine ⟨"equivalent route already exists", ?_⟩
      simp only [storeCreateRoute, hname2, hany]
      simp
  obtain ⟨msg, hm⟩ := hstore
  simp only [GetOrCreateRoute, CreateRoute]
  rw [hm]
  simp [isAlreadyExistsErr, hfl]

lemma getOrCreateRoute_creates_when_absent (s : List CFRoute)
    (message : CreateRouteMessage) (g : String)
    (hnomatch : s.filter (fun r => routeMatchesMessage r message) = [])
    (hfresh : ∀ r ∈ s, ¬(r.name = g ∧ r.namespaceName = message.spaceGUID)) :
    GetOrCreateRoute s message g =
      .ok (cfRouteToRouteRecord (messageToCFRoute message g),
        s ++ [messageToCFRoute message g]) := by
  have hnm := List.filter_eq_nil_iff.mp hnomatch
  have hname : (s.any (fun r2 =>
      r2.name == (messageToCFRoute message g).name &&
      r2.namespaceName == (messageToCFRoute message g).namespaceName)) = false := by
    rw [List.any_eq_false]
    intro r hr hc
    rw [Bool.and_eq_true, beq_iff_eq, beq_iff_eq] at hc
    exact hfresh r hr hc
  have hequiv : (s.any (fun r2 =>
      r2.namespaceName == (messageToCFRoute message g).namespaceName &&
      r2.host == (messageToCFRoute message g).host &&
      r2.path == (messageToCFRoute message g).path &&
      r2.domainGUID == (messageToCFRoute message g).domainGUID)) = false := by
    rw [List.any_eq_false]
    intro r hr hc
    exact hnm r hr hc
  have hstore : storeCreateRoute s (messageToCFRoute message g) =
      .ok (s ++ [messageToCFRoute message g]) := by
    simp only [storeCreateRoute, hname, hequiv]
    simp
  simp only [GetOrCreateRoute, CreateRoute]
  rw [hstore]

/-- Claim C8: `GetOrCreateRoute` is idempotent — provided the generated GUID
does not collide with an existing object name, two sequential calls with the
same message against a store with no concurrent writer both succeed, return
records with the same GUID, and the second call leaves the store state it
observed unchanged (creates no new object); moreover a create failure caused
specifically by an equivalent existing route is converted into a successful
re-fetch of the existing record rather than a propagated conflict. -/
theorem getOrCreateRoute_idempotent
    (s : List CFRoute) (message : CreateRouteMessage) (g1 g2 : String)
    (hfresh : ∀ r ∈ s, ¬(r.name = g1 ∧ r.namespaceName = message.spaceGUID)) :
    (∃ record1 s1, GetOrCreateRoute s message g1 = .ok (record1, s1) ∧
      ∃ record2, GetOrCreateRoute s1 message g2 = .ok (record2, s1) ∧
        record2.guid = record1.guid) ∧
    (∀ r rest, s.filter (fun r2 => routeMatchesMessage r2 message) = r :: rest →
      GetOrCreateRoute s message g1 = .ok (cfRouteToRouteRecord r, s)) := by
  constructor
  · cases hfl : s.filter (fun r2 => routeMatchesMessage r2 message) with
    | nil =>
      refine ⟨cfRouteToRouteRecord (messageToCFRoute message g1),
        s ++ [messageToCFRoute message g1],
        getOrCreateRoute_creates_when_absent s message g1 hfl hfresh, ?_⟩
      have hfl2 : (s ++ [messageToCFRoute message g1]).filter
          (fun r2 => routeMatchesMessage r2 message) = [messageToCFRoute message g1] := by
        rw [List.filter_append, hfl, List.nil_append]
        simp [routeMatchesMessage_messageToCFRoute]
      exact ⟨cfRouteToRouteRecord (messageToCFRoute message g1),
        getOrCreateRoute_on_existing _ message g2 _ [] hfl2, rfl⟩
    | cons r rest =>
      exact ⟨cfRouteToRouteRecord r, s,
        getOrCreateRoute_on_existing s message g1 r rest hfl,
        cfRouteToRouteRecord r,
        getOrCreateRoute_on_existing s message g2 r rest hfl, rfl⟩
  · intro r rest hfl
    exact getOrCreateRoute_on_existing s message g1 r rest hfl

/-- Witness for C8: a store holding one route equivalent to the message; both
calls succeed with that route's GUID and the state never changes, and the
conversion-to-re-fetch clause applies to the concrete singleton filter. -/
theorem getOrCreateRoute_idempotent_witness :
    (∃ record1 s1, GetOrCreateRoute
        [{ name := "existing-route", namespaceName := "ns", host := "h", path := "/p",
           protocol := "", domainGUID := "dom", destinations := [] }]
        { host := "h", path := "/p", spaceGUID := "ns", domainGUID := "dom" }
        "route-guid-1" = .ok (record1, s1) ∧
      ∃ record2, GetOrCreateRoute s1
        { host := "h", path := "/p", spaceGUID := "ns", domainGUID := "dom" }
        "route-guid-2" = .ok (record2, s1) ∧
        record2.guid = record1.guid) ∧
    (∀ r rest,
      ([{ name := "existing-route", namespaceName := "ns", host := "h", path := "/p",
          protocol := "", domainGUID := "dom", destinations := [] }] :
        List CFRoute).filter (fun r2 => routeMatchesMessage r2
          { host := "h", path := "/p", spaceGUID := "ns", domainGUID := "dom" }) =
        r :: rest →
      GetOrCreateRoute
        [{ name := "existing-route", namespaceName := "ns", host := "h", path := "/p",
           protocol := "", domainGUID := "dom", destinations := [] }]
        { host := "h", path := "/p", spaceGUID := "ns", domainGUID := "dom" }
        "route-guid-1" = .ok (cfRouteToRouteRecord r,
          [{ name := "existing-route", namespaceName := "ns", host := "h", path := "/p",
             protocol := "", domainGUID := "dom", destinations := [] }])) :=
  getOrCreateRoute_idempotent _ _ "route-guid-1" "route-guid-2" (by decide)

end Korifi
